import Mathlib

/-!
License service: lifecycle and authorization engine.

A shallow embedding of the Go sources

* internal/models/license.go
* internal/storage/storage.go
* internal/handlers/handlers.go
* internal/handlers/userHandler.go

The SQLite tables are lists of rows, a statement is a pure function on them.
Instants are integers (nanoseconds since the Unix epoch), durations are int64
nanoseconds with wrap-around multiplication, as in the Go time package.
Go errors are represented by their message (the handlers inspect the text).
-/

namespace LicenseService

/-! ## Time -/

/-- An instant of time.Time, in nanoseconds since the Unix epoch. The wall clock
of time.Time counts int64 seconds, so every instant reachable below is
represented exactly. -/
abbrev Time := Int

/-- Reduction of an integer to the int64 range, two's complement. -/
def wrapInt64 (x : Int) : Int := (x + 2 ^ 63) % 2 ^ 64 - 2 ^ 63

/-- The constant time.Minute, in nanoseconds. -/
def Minute : Int := 60 * 1000000000

/-- The expression time.Duration(x) * time.Minute: an int64 product. -/
def minutes (x : Int) : Int := wrapInt64 (x * Minute)

/-- The method Time.Add. -/
def Time.Add (t : Time) (d : Int) : Time := t + d

/-- The method Time.Before. -/
def Time.Before (t u : Time) : Bool := decide (t < u)

/-- The method Time.After. -/
def Time.After (t u : Time) : Bool := decide (t > u)

/-- The zero value of time.Time: January 1 of year 1, 00:00:00 UTC. -/
def zeroTime : Time := -62135596800 * 1000000000

/-! ## Records and tables -/

/-- The struct models.License. -/
structure License where
  Key : String
  Owner : String
  Project : String
  OneTime : Bool
  ExpireTime : Time
  CreatedAt : Time
deriving DecidableEq, Repr

/-- Modelled from the spec: the struct models.User, whose declaration is not
among the sources; its fields are the ones storage.go reads and writes
(Id, Login, PasswordHash). -/
structure User where
  Id : Int
  Login : String
  PasswordHash : String
deriving DecidableEq, Repr

/-- The state behind SQLiteStorage: the rows of the tables licenses and users,
in insertion order. -/
structure SQLiteStorage where
  licenses : List License
  users : List User
deriving DecidableEq, Repr

/-- The WHERE clause key = ? AND owner = ? of the two UPDATE statements. -/
def matchesKeyOwner (key owner : String) (l : License) : Bool :=
  l.Key == key && l.Owner == owner

/-- The effect of SET expire_time = ? on one row, under the WHERE clause. -/
def updateRow (t : Time) (key owner : String) (l : License) : License :=
  if matchesKeyOwner key owner l then { l with ExpireTime := t } else l

/-- The statement UPDATE licenses SET expire_time = ? WHERE key = ? AND owner = ?:
the new rows and the number of rows affected. -/
def execUpdateExpire (rows : List License) (t : Time) (key owner : String) :
    List License × Nat :=
  (rows.map (updateRow t key owner), (rows.filter (matchesKeyOwner key owner)).length)

/-- The schema constraint key TEXT NOT NULL UNIQUE on the table licenses. -/
def UniqueKeys (s : SQLiteStorage) : Prop :=
  (s.licenses.map License.Key).Nodup

/-- The schema constraint login TEXT UNIQUE NOT NULL on the table users. -/
def UniqueLogins (s : SQLiteStorage) : Prop :=
  (s.users.map User.Login).Nodup

/-! ## storage.go -/

/-- The method SQLiteStorage.Get: the row selected by key, or the error
"license not found" when the query has no rows. -/
def Get (s : SQLiteStorage) (key : String) : Except String License :=
  match s.licenses.find? (fun l => l.Key == key) with
  | none => .error "license not found"
  | some license => .ok license

/-- The method SQLiteStorage.IsValid, at clock reading now: the pair (bool, error)
of the Go function. -/
def IsValid (s : SQLiteStorage) (key : String) (now : Time) : Bool × Option String :=
  match Get s key with
  | .error err => (false, some ("failed to get license: " ++ err))
  | .ok license => (Time.Before now license.ExpireTime, none)

/-- The method SQLiteStorage.InvalidLicense, at clock reading now: the storage
after the UPDATE and the returned error. -/
def InvalidLicense (s : SQLiteStorage) (login key : String) (now : Time) :
    SQLiteStorage × Option String :=
  let result := execUpdateExpire s.licenses now key login
  let s1 : SQLiteStorage := { s with licenses := result.1 }
  if result.2 == 0 then
    (s1, some "license not found or does not belong to user")
  else
    (s1, none)

/-- The method SQLiteStorage.ExtendKey, at clock reading now: the storage after
the call and the returned error. -/
def ExtendKey (s : SQLiteStorage) (login key : String) (additionalTime : Int) (now : Time) :
    SQLiteStorage × Option String :=
  match Get s key with
  | .error err =>
    if err == "license not found" then
      (s, some "license not found")
    else
      (s, some ("failed to get license: " ++ err))
  | .ok license =>
    if license.Owner != login then
      (s, some "license does not belong to user")
    else
      let currentTime := now
      let newExpireTime := Time.Add license.ExpireTime (minutes additionalTime)
      let newExpireTime :=
        if Time.Before license.ExpireTime currentTime then
          Time.Add currentTime (minutes additionalTime)
        else newExpireTime
      let result := execUpdateExpire s.licenses newExpireTime key login
      let s1 : SQLiteStorage := { s with licenses := result.1 }
      if result.2 == 0 then
        (s1, some "license not found or does not belong to user")
      else
        (s1, none)

/-- The text of the driver error for a violated UNIQUE constraint; the handlers
never inspect it. -/
def uniqueViolation (column : String) : String :=
  "constraint failed: UNIQUE constraint failed: " ++ column

/-- The statement INSERT INTO licenses (key, owner, project, one_time, expire_time),
under the UNIQUE constraint on key; created_at takes its default, the
CURRENT_TIMESTAMP of the database, dbNow. -/
def execInsertLicense (rows : List License) (license : License) (dbNow : Time) :
    Except String (List License) :=
  if rows.any (fun l => l.Key == license.Key) then
    .error (uniqueViolation "licenses.key")
  else
    .ok (rows ++ [{ license with CreatedAt := dbNow }])

/-! ## utils.go -/

/-- A byte. -/
abbrev Byte := Fin 256

/-- The table of hex.EncodeToString. -/
def hextable : List Char := "0123456789abcdef".data

/-- The function hex.EncodeToString, as a list of characters. -/
def hexEncode : List Byte → List Char
  | [] => []
  | v :: rest => hextable.getD (v.val / 16) '0' :: hextable.getD (v.val % 16) '0' :: hexEncode rest

/-- The call rand.Read(bytes) on a buffer of n bytes: the entropy source hands out
its first n bytes, or fails when it cannot. -/
def randRead (entropy : List Byte) (n : Nat) : Except String (List Byte) :=
  if entropy.length < n then .error "entropy source unavailable" else .ok (entropy.take n)

/-- The formatting loop of GenerateLicenseKey, from index i with the text built so
far; fuel bounds the number of iterations. -/
def formatLoop (key : List Char) : Nat → Nat → List Char → List Char
  | 0, _, formatted => formatted
  | fuel + 1, i, formatted =>
    if i < key.length then
      let formatted := if i > 0 then formatted ++ ['-'] else formatted
      let stop := if i + 4 > key.length then key.length else i + 4
      formatLoop key fuel (i + 4) (formatted ++ (key.drop i).take (stop - i))
    else
      formatted

/-- The function utils.GenerateLicenseKey, reading from the given entropy source. -/
def GenerateLicenseKey (n : Int) (entropy : List Byte) : Except String String :=
  let n := if n ≤ 0 then 16 else n
  match randRead entropy n.toNat with
  | .error err => .error err
  | .ok bytes =>
    let key := hexEncode bytes
    .ok (String.mk (formatLoop key key.length 0 []))

/-! ## storage.go, continued -/

/-- The method SQLiteStorage.Add: the storage after the call and the pair
(key, error) as an Except value. -/
def Add (s : SQLiteStorage) (license : License) (entropy : List Byte) (dbNow : Time) :
    SQLiteStorage × Except String String :=
  match GenerateLicenseKey 0 entropy with
  | .error err => (s, .error ("failed to add license: " ++ err))
  | .ok key =>
    let license := { license with Key := key }
    match execInsertLicense s.licenses license dbNow with
    | .error err => (s, .error ("failed to add license: " ++ err))
    | .ok rows => ({ s with licenses := rows }, .ok license.Key)

/-- The method SQLiteStorage.IsLoginFree: the pair (bool, error). -/
def IsLoginFree (s : SQLiteStorage) (login : String) : Bool × Option String :=
  match s.users.find? (fun u => u.Login == login) with
  | none => (true, none)
  | some _ => (false, none)

/-- The AUTOINCREMENT id of the next row of users. -/
def nextUserId (rows : List User) : Int :=
  (rows.map User.Id).foldl max 0 + 1

/-- The statement INSERT INTO users (login, password_hash), under the UNIQUE
constraint on login. -/
def execInsertUser (rows : List User) (login passwordHash : String) :
    Except String (List User) :=
  if rows.any (fun u => u.Login == login) then
    .error (uniqueViolation "users.login")
  else
    .ok (rows ++ [{ Id := nextUserId rows, Login := login, PasswordHash := passwordHash }])

/-- The method SQLiteStorage.CreateUser: the storage after the call and the
returned error. -/
def CreateUser (s : SQLiteStorage) (user : User) : SQLiteStorage × Option String :=
  match IsLoginFree s user.Login with
  | (_, some err) => (s, some ("failed to create user: " ++ err))
  | (isFree, none) =>
    if !isFree then
      (s, some "login is already used")
    else
      match execInsertUser s.users user.Login user.PasswordHash with
      | .error err => (s, some ("failed to create user: " ++ err))
      | .ok rows => ({ s with users := rows }, none)

/-- The method SQLiteStorage.GetUser. -/
def GetUser (s : SQLiteStorage) (login : String) : Except String User :=
  match s.users.find? (fun u => u.Login == login) with
  | none => .error "failed to get user: sql: no rows in result set. No user"
  | some user => .ok user

/-! ## jwt.go -/

/-- The claims of an access token: login, exp and iat (Unix seconds). -/
structure Claims where
  login : String
  exp : Int
  iat : Int
deriving DecidableEq, Repr

/-- The method Time.Unix: whole seconds since the epoch. -/
def Time.Unix (t : Time) : Int := t / 1000000000

/-- The external primitives of the credential engine: bcrypt and the HS256
signature under the process-wide secret. -/
structure Crypto where
  /-- The call bcrypt.GenerateFromPassword(password, bcrypt.DefaultCost). -/
  bcryptGenerate : String → Except String String
  /-- Whether bcrypt.CompareHashAndPassword(hash, password) returns no error. -/
  bcryptCompare : String → String → Bool
  /-- The call token.SignedString(jwtSecret) on a token with the given claims. -/
  signedString : Claims → Except String String

/-- The function utils.GenerateAccessToken, at clock reading now. -/
def GenerateAccessToken (c : Crypto) (login : String) (now : Time) : Except String String :=
  c.signedString { login := login, exp := Time.Unix (Time.Add now (15 * Minute)),
                   iat := Time.Unix now }

/-! ## handlers.go -/

/-- The struct CheckLicenseResponse. -/
structure CheckLicenseResponse where
  Valid : Bool
  ExpireTime : Time
  Message : String
deriving DecidableEq, Repr

/-- The struct RegisterLoginResponse. -/
structure RegisterLoginResponse where
  Ok : Bool
  Message : String
  AccessToken : String
deriving DecidableEq, Repr

/-- What a handler writes as the body of its response. -/
inductive Body where
  /-- The body written by http.Error: the message as plain text. -/
  | error (msg : String)
  /-- The JSON object with the fields message and key. -/
  | message (message key : String)
  /-- The JSON encoding of a CheckLicenseResponse. -/
  | check (r : CheckLicenseResponse)
  /-- The JSON encoding of a RegisterLoginResponse. -/
  | account (r : RegisterLoginResponse)
deriving DecidableEq, Repr

/-- The status code and body of a response. -/
structure Response where
  status : Nat
  body : Body
deriving DecidableEq, Repr

/-- The call http.Error(w, msg, code). -/
def httpError (msg : String) (code : Nat) : Response :=
  { status := code, body := .error msg }

/-- What a handler reads from its request: the method, the login that the
authentication middleware left in the context (none when the value is absent),
the query parameter key (empty when absent), and the decoded JSON body (none
when decoding fails). -/
structure Request (β : Type) where
  Method : String
  login : Option String
  key : String
  body : Option β

/-- The struct AddLicenseRequest; ExpireTime is an int64 number of minutes. -/
structure AddLicenseRequest where
  Owner : String
  Product : String
  OneTime : Bool
  ExpireTime : Int
deriving DecidableEq, Repr

/-- The struct ExtendRequest; AdditionalTime is an int64 number of minutes. -/
structure ExtendRequest where
  AdditionalTime : Int
deriving DecidableEq, Repr

/-- The struct RegisterLoginRequest. -/
structure RegisterLoginRequest where
  Login : String
  Password : String
deriving DecidableEq, Repr

/-- The function strings.Contains on the characters of its arguments. -/
def stringsContains (s substr : String) : Bool :=
  let rec go : List Char → List Char → Bool
    | [], sub => sub.isEmpty
    | c :: cs, sub => sub.isPrefixOf (c :: cs) || go cs sub
  go s.data substr.data

/-- The handler AddLicense. The clock is read twice (now for ExpireTime, now2 for
CreatedAt); entropy and dbNow are what storage.Add consumes. -/
def Handler.AddLicense (s : SQLiteStorage) (r : Request AddLicenseRequest)
    (now now2 : Time) (entropy : List Byte) (dbNow : Time) : SQLiteStorage × Response :=
  if r.Method != "POST" then (s, httpError "Method not allowed" 405) else
  match r.login with
  | none => (s, httpError "Unauthorized" 401)
  | some login =>
    if login == "" then (s, httpError "Unauthorized" 401) else
    match r.body with
    | none => (s, httpError "Invalid request body" 400)
    | some req =>
      if req.ExpireTime < 5 then
        (s, httpError "Expire time must be more than 5 minutes" 400)
      else
        let license : License :=
          { Key := "", Owner := login, OneTime := req.OneTime, Project := req.Product,
            ExpireTime := Time.Add now (minutes req.ExpireTime), CreatedAt := now2 }
        match Add s license entropy dbNow with
        | (s1, .error _) => (s1, httpError "Internal server error" 500)
        | (s1, .ok key) =>
          (s1, { status := 201, body := .message "License added successfully" key })

/-- The handler CheckLicense. The clock is read in storage.IsValid (t1) and again
after the record is fetched (t2). -/
def Handler.CheckLicense (s : SQLiteStorage) (r : Request Unit) (t1 t2 : Time) : Response :=
  if r.Method != "GET" then httpError "Method not allowed" 405 else
  let key := r.key
  if key == "" then httpError "Key is required" 400 else
  let response : CheckLicenseResponse := { Valid := false, ExpireTime := zeroTime, Message := "" }
  let response :=
    match IsValid s key t1 with
    | (_, some _) => { response with Valid := false, Message := "Invalid license key" }
    | (valid, none) =>
      let response := { response with Valid := valid }
      if valid then
        match Get s key with
        | .error _ => { response with Valid := false, Message := "Invalid license key 2" }
        | .ok license =>
          let response :=
            { response with Valid := true, ExpireTime := license.ExpireTime,
                            Message := "License is valid" }
          if Time.After t2 response.ExpireTime then
            { response with Valid := false, Message := "License expired" }
          else response
      else response
  { status := 200, body := .check response }

/-- The handler InvalidKey, at clock reading now. -/
def Handler.InvalidKey (s : SQLiteStorage) (r : Request Unit) (now : Time) :
    SQLiteStorage × Response :=
  if r.Method != "POST" then (s, httpError "Method not allowed" 405) else
  match r.login with
  | none => (s, httpError "Unauthorized" 401)
  | some login =>
    if login == "" then (s, httpError "Unauthorized" 401) else
    let key := r.key
    if key == "" then (s, httpError "Key is required" 400) else
    match InvalidLicense s login key now with
    | (s1, some _) => (s1, httpError "Internal server error" 500)
    | (s1, none) => (s1, { status := 200, body := .message "License invalided successfully" key })

/-- The handler ExtendKey, at clock reading now. -/
def Handler.ExtendKey (s : SQLiteStorage) (r : Request ExtendRequest) (now : Time) :
    SQLiteStorage × Response :=
  if r.Method != "POST" then (s, httpError "Method not allowed" 405) else
  match r.login with
  | none => (s, httpError "Unauthorized" 401)
  | some login =>
    if login == "" then (s, httpError "Unauthorized" 401) else
    let key := r.key
    if key == "" then (s, httpError "Key is required" 400) else
    match r.body with
    | none => (s, httpError "Invalid request body" 400)
    | some req =>
      if req.AdditionalTime < 5 then
        (s, httpError "Additional time must be more than 5 minutes" 400)
      else
        match LicenseService.ExtendKey s login key req.AdditionalTime now with
        | (s1, some errMsg) =>
          if stringsContains errMsg "license not found" ||
              stringsContains errMsg "does not belong to user" then
            (s1, httpError "License not found or access denied" 403)
          else
            (s1, httpError "Internal server error" 500)
        | (s1, none) =>
          (s1, { status := 200, body := .message "License extended successfully" key })

/-! ## userHandler.go -/

/-- The handler Register; now is the clock reading of GenerateAccessToken. -/
def Handler.Register (c : Crypto) (s : SQLiteStorage) (r : Request RegisterLoginRequest)
    (now : Time) : SQLiteStorage × Response :=
  if r.Method != "POST" then (s, httpError "Method not allowed" 405) else
  match r.body with
  | none => (s, httpError "Invalid request body" 400)
  | some req =>
    if req.Login == "" || req.Password == "" then
      (s, httpError "Login and Password are required" 400)
    else if req.Login.utf8ByteSize < 6 || req.Password.utf8ByteSize < 8 then
      (s, httpError "Login and/or Password invalid" 400)
    else
      match c.bcryptGenerate req.Password with
      | .error _ => (s, httpError "Internal server error" 500)
      | .ok hash =>
        let user : User := { Id := 0, Login := req.Login, PasswordHash := hash }
        match IsLoginFree s user.Login with
        | (_, some _) => (s, httpError "Internal server error" 500)
        | (free, none) =>
          if !free then (s, httpError "Login is already taken" 400) else
          match CreateUser s user with
          | (s1, some _) => (s1, httpError "Internal server error" 500)
          | (s1, none) =>
            match GenerateAccessToken c user.Login now with
            | .error _ => (s1, httpError "Internal server error" 500)
            | .ok accessToken =>
              (s1, { status := 201,
                     body := .account { Ok := true, Message := "User successfully created",
                                        AccessToken := accessToken } })

/-- The handler Login; now is the clock reading of GenerateAccessToken. -/
def Handler.Login (c : Crypto) (s : SQLiteStorage) (r : Request RegisterLoginRequest)
    (now : Time) : Response :=
  if r.Method != "POST" then httpError "Method not allowed" 405 else
  match r.body with
  | none => httpError "Invalid request body" 400
  | some req =>
    if req.Login == "" || req.Password == "" then
      httpError "Login and Password are required" 400
    else
      match GetUser s req.Login with
      | .error _ => httpError "Failed to login" 400
      | .ok user =>
        if !c.bcryptCompare user.PasswordHash req.Password then
          httpError "Failed to login. Incorrect login or password" 401
        else
          match GenerateAccessToken c user.Login now with
          | .error _ => httpError "Failed to login" 400
          | .ok accessToken =>
            { status := 200,
              body := .account { Ok := true, Message := "User successfully logined",
                                 AccessToken := accessToken } }

/-! ## Sample data -/

/-- A storage with one license of alice1, expiring at instant 1000. -/
def sampleStorage : SQLiteStorage :=
  { licenses := [{ Key := "a1b2-c3d4", Owner := "alice1", Project := "foo", OneTime := false,
                   ExpireTime := 1000, CreatedAt := 0 }],
    users := [{ Id := 1, Login := "alice1", PasswordHash := "h:password123" }] }

/-- The storage before anything is stored. -/
def emptyStorage : SQLiteStorage := { licenses := [], users := [] }

/-- Sixteen bytes 0xab from the entropy source. -/
def sampleEntropy : List Byte := List.replicate 16 171

/-- The body of an AddLicense request for product foo and d minutes. -/
def sampleAdd (d : Int) : AddLicenseRequest :=
  { Owner := "", Product := "foo", OneTime := false, ExpireTime := d }

/-- An instant of November 2023, in nanoseconds since the epoch. -/
def sampleNow : Time := 1700000000 * 1000000000

/-- A stand-in for bcrypt and the token signature, for evaluation: the hash of a
password is the password behind a marker, the token of a login is the login
behind a marker. -/
def sampleCrypto : Crypto :=
  { bcryptGenerate := fun password => .ok ("h:" ++ password),
    bcryptCompare := fun hash password => hash == "h:" ++ password,
    signedString := fun claims => .ok ("token:" ++ claims.login) }

/-- A request to the unauthenticated handler CheckLicense for the given key. -/
def checkRequest (key : String) : Request Unit :=
  { Method := "GET", login := none, key := key, body := none }

/-- A request to the handler InvalidKey by the authenticated identity c. -/
def invalidRequest (c key : String) : Request Unit :=
  { Method := "POST", login := some c, key := key, body := some () }

/-- A request to the handler ExtendKey by the authenticated identity c, for m
additional minutes. -/
def extendRequest (c key : String) (m : Int) : Request ExtendRequest :=
  { Method := "POST", login := some c, key := key, body := some { AdditionalTime := m } }

/-- A request to the handler AddLicense by the authenticated identity c. -/
def addRequest (c : String) (req : AddLicenseRequest) : Request AddLicenseRequest :=
  { Method := "POST", login := some c, key := "", body := some req }

/-- A request to the handlers Register and Login. -/
def credentialsRequest (login password : String) : Request RegisterLoginRequest :=
  { Method := "POST", login := none, key := "",
    body := some { Login := login, Password := password } }

/-- The valid field of a CheckLicense response, when the body is one. -/
def validField (r : Response) : Option Bool :=
  match r.body with
  | .check c => some c.Valid
  | _ => none

/-- The frame of a mutation called by identity c, row by row: a row keeps every
field but expire_time, and a row whose owner is not c is left as it is. -/
def FrameFor (c : String) (before after : List License) : Prop :=
  List.Forall₂
    (fun old new => new = { old with ExpireTime := new.ExpireTime } ∧ (old.Owner ≠ c → new = old))
    before after

/-- A second identity, owner of nothing in the sample storage. -/
def mallory : String := "mallory"

/-- The hex string cut into blocks of four characters from the left; the last
block takes what is left (one to three characters) when the length is not a
multiple of four. -/
def blocksOfFour : List Char → List (List Char)
  | a :: b :: c :: d :: rest => [a, b, c, d] :: blocksOfFour rest
  | [] => []
  | short => [short]

/-! ## Lemmas on the tables -/

theorem minutes_eq_of_le (m : Int) (h0 : 0 ≤ m) (hmax : m ≤ 153722867) :
    minutes m = m * Minute := by
  unfold minutes wrapInt64 Minute
  have h1 : (m * (60 * 1000000000) + 2 ^ 63) % 2 ^ 64 = m * (60 * 1000000000) + 2 ^ 63 := by
    apply Int.emod_eq_of_lt <;> omega
  rw [h1]; omega

theorem get_ok_iff (s : SQLiteStorage) (key : String) (lic : License) :
    Get s key = .ok lic ↔ s.licenses.find? (fun l => l.Key == key) = some lic := by
  unfold Get
  cases s.licenses.find? (fun l => l.Key == key) <;> simp

theorem get_error_iff (s : SQLiteStorage) (key : String) (err : String) :
    Get s key = .error err ↔
      s.licenses.find? (fun l => l.Key == key) = none ∧ err = "license not found" := by
  unfold Get
  cases s.licenses.find? (fun l => l.Key == key) <;> simp [eq_comm]

theorem get_ok_mem (s : SQLiteStorage) (key : String) (lic : License)
    (h : Get s key = .ok lic) : lic ∈ s.licenses ∧ lic.Key = key := by
  rw [get_ok_iff] at h
  have h1 := List.mem_of_find?_eq_some h
  have h2 := List.find?_some h
  exact ⟨h1, by simpa using h2⟩

/-- An UPDATE whose WHERE clause matches no row leaves the table as it is and
affects zero rows. -/
theorem execUpdateExpire_of_no_match (rows : List License) (t : Time) (key owner : String)
    (h : ∀ l ∈ rows, matchesKeyOwner key owner l = false) :
    execUpdateExpire rows t key owner = (rows, 0) := by
  unfold execUpdateExpire
  have h1 : rows.map (updateRow t key owner) = rows := by
    conv_rhs => rw [← List.map_id rows]
    apply List.map_congr_left
    intro l hl
    simp [updateRow, h l hl]
  have h2 : rows.filter (matchesKeyOwner key owner) = [] := by
    rw [List.filter_eq_nil_iff]
    intro l hl
    simp [h l hl]
  rw [h1, h2]; rfl

/-- After the UPDATE, the row selected by key is the old one with the new expiry,
when the old one belongs to the owner named in the WHERE clause. -/
theorem find?_execUpdateExpire (rows : List License) (t : Time) (key owner : String)
    (lic : License) (h : rows.find? (fun l => l.Key == key) = some lic)
    (ho : lic.Owner = owner) :
    (execUpdateExpire rows t key owner).1.find? (fun l => l.Key == key) =
      some { lic with ExpireTime := t } := by
  unfold execUpdateExpire
  induction rows with
  | nil => simp at h
  | cons a rest ih =>
    show List.find? _ (List.map (updateRow t key owner) (a :: rest)) = _
    rw [List.map_cons]
    by_cases hk : a.Key = key
    · rw [List.find?_cons_of_pos _ (by simp [hk])] at h
      have ha : a = lic := Option.some.inj h
      subst ha
      have hrow : updateRow t key owner a = { a with ExpireTime := t } := by
        simp [updateRow, matchesKeyOwner, hk, ho]
      rw [hrow, List.find?_cons_of_pos _ (by simp [hk])]
    · rw [List.find?_cons_of_neg _ (by simp [hk])] at h
      have hrow : updateRow t key owner a = a := by
        simp [updateRow, matchesKeyOwner, hk]
      rw [hrow, List.find?_cons_of_neg _ (by simp [hk])]
      exact ih h

/-- The UPDATE affects at least one row when the row selected by key belongs to
the owner named in the WHERE clause. -/
theorem rowsAffected_pos (rows : List License) (t : Time) (key owner : String)
    (lic : License) (h : rows.find? (fun l => l.Key == key) = some lic)
    (ho : lic.Owner = owner) :
    (execUpdateExpire rows t key owner).2 ≠ 0 := by
  unfold execUpdateExpire
  have h1 := List.mem_of_find?_eq_some h
  have h2 : lic.Key = key := by simpa using List.find?_some h
  have h3 : lic ∈ rows.filter (matchesKeyOwner key owner) := by
    rw [List.mem_filter]
    exact ⟨h1, by simp [matchesKeyOwner, h2, ho]⟩
  intro h0
  have h4 := List.eq_nil_of_length_eq_zero h0
  rw [h4] at h3
  simp at h3

/-- Under the UNIQUE constraint on key, a caller who does not own the record of a
key (or asks for a key without record) matches no row of the UPDATE. -/
theorem no_match_of_not_owner (s : SQLiteStorage) (c k : String) (hu : UniqueKeys s)
    (hno : ∀ lic, Get s k = .ok lic → lic.Owner ≠ c) :
    ∀ l ∈ s.licenses, matchesKeyOwner k c l = false := by
  intro l hl
  by_contra hm
  simp only [matchesKeyOwner, Bool.not_eq_false, Bool.and_eq_true, beq_iff_eq] at hm
  obtain ⟨hk, ho⟩ := hm
  cases hfind : s.licenses.find? (fun l => l.Key == k) with
  | none =>
    rw [List.find?_eq_none] at hfind
    have := hfind l hl
    simp [hk] at this
  | some lic =>
    have hget : Get s k = .ok lic := (get_ok_iff s k lic).2 hfind
    have hmem := get_ok_mem s k lic hget
    have heq : l = lic := by
      apply List.inj_on_of_nodup_map hu hl hmem.1
      rw [hk, hmem.2]
    exact hno lic hget (heq ▸ ho)

/-- The UPDATE changes no row but those of the owner named in its WHERE clause,
and changes nothing but expire_time. -/
theorem execUpdateExpire_frame (rows : List License) (t : Time) (key owner : String) :
    List.Forall₂
      (fun old new => new = { old with ExpireTime := new.ExpireTime } ∧
        (old.Owner ≠ owner → new = old))
      rows (execUpdateExpire rows t key owner).1 := by
  unfold execUpdateExpire
  induction rows with
  | nil => simp
  | cons a rest ih =>
    show List.Forall₂ _ (a :: rest) (List.map (updateRow t key owner) (a :: rest))
    rw [List.map_cons]
    refine List.Forall₂.cons ?_ ih
    by_cases hm : matchesKeyOwner key owner a = true
    · have hrow : updateRow t key owner a = { a with ExpireTime := t } := by
        simp [updateRow, hm]
      rw [hrow]
      refine ⟨rfl, ?_⟩
      intro hne
      simp [matchesKeyOwner] at hm
      exact absurd hm.2 hne
    · have hrow : updateRow t key owner a = a := by
        simp [updateRow, hm]
      rw [hrow]
      exact ⟨rfl, fun _ => rfl⟩

/-! ## The UNIQUE constraint on key is an invariant -/

theorem uniqueKeys_empty : UniqueKeys emptyStorage := by
  simp [UniqueKeys, emptyStorage]

theorem keys_execUpdateExpire (rows : List License) (t : Time) (key owner : String) :
    (execUpdateExpire rows t key owner).1.map License.Key = rows.map License.Key := by
  unfold execUpdateExpire
  rw [List.map_map]
  apply List.map_congr_left
  intro l _
  simp only [Function.comp, updateRow]
  split <;> rfl

theorem uniqueKeys_execInsertLicense (rows rows1 : List License) (license : License)
    (dbNow : Time) (h : (rows.map License.Key).Nodup)
    (hins : execInsertLicense rows license dbNow = .ok rows1) :
    (rows1.map License.Key).Nodup := by
  unfold execInsertLicense at hins
  split at hins
  · cases hins
  · rename_i hany
    have hrows : rows1 = rows ++ [{ license with CreatedAt := dbNow }] :=
      (Except.ok.inj hins).symm
    rw [hrows, List.map_append, List.nodup_append]
    refine ⟨h, by simp, ?_⟩
    intro a ha hb
    simp only [List.map_cons, List.map_nil, List.mem_singleton] at hb
    rw [List.mem_map] at ha
    obtain ⟨l, hl, hkey⟩ := ha
    apply hany
    rw [List.any_eq_true]
    exact ⟨l, hl, by simp [hkey, hb]⟩

theorem uniqueKeys_add (s : SQLiteStorage) (license : License) (entropy : List Byte)
    (dbNow : Time) (h : UniqueKeys s) : UniqueKeys (Add s license entropy dbNow).1 := by
  unfold Add
  split
  · exact h
  · rename_i key _
    cases hins : execInsertLicense s.licenses { license with Key := key } dbNow with
    | error err => simpa [hins] using h
    | ok rows =>
      simp only [hins]
      exact uniqueKeys_execInsertLicense _ _ _ dbNow h hins

theorem uniqueKeys_invalidLicense (s : SQLiteStorage) (c k : String) (now : Time)
    (h : UniqueKeys s) : UniqueKeys (InvalidLicense s c k now).1 := by
  unfold InvalidLicense
  simp only [beq_iff_eq]
  split <;> simpa [UniqueKeys, keys_execUpdateExpire] using h

/-! ## Extension -/

/-- The result of storage.ExtendKey called by the owner of the record: one UPDATE
with the new expiry, and no error. -/
theorem extendKey_of_owner (s : SQLiteStorage) (login key : String) (m : Int) (now : Time)
    (lic : License) (hget : Get s key = .ok lic) (hown : lic.Owner = login) :
    ExtendKey s login key m now =
      ({ s with licenses := (execUpdateExpire s.licenses
          (if lic.ExpireTime < now then now + minutes m else lic.ExpireTime + minutes m)
          key login).1 }, none) := by
  have hfind := (get_ok_iff s key lic).1 hget
  have hpos := fun t => rowsAffected_pos s.licenses t key login lic hfind hown
  unfold ExtendKey
  rw [hget]
  simp only [hown, bne_self_eq_false, Bool.false_eq_true, if_false, Time.Before, Time.Add,
    decide_eq_true_eq, beq_iff_eq]
  rw [if_neg (hpos _)]

/-- The record of a key after storage.ExtendKey called by its owner. -/
theorem get_extendKey_of_owner (s : SQLiteStorage) (login key : String) (m : Int) (now : Time)
    (lic : License) (hget : Get s key = .ok lic) (hown : lic.Owner = login) :
    Get (ExtendKey s login key m now).1 key =
      .ok { lic with ExpireTime :=
        if lic.ExpireTime < now then now + minutes m else lic.ExpireTime + minutes m } := by
  rw [extendKey_of_owner s login key m now lic hget hown, get_ok_iff]
  exact find?_execUpdateExpire s.licenses _ key login lic ((get_ok_iff s key lic).1 hget) hown

/-- For 5 ≤ m ≤ 153722867, the largest number of minutes whose int64 nanosecond
duration does not wrap, ExtendKey called by the owner o of the record of k
succeeds and sets expire_time to E + m minutes when the license is live
(now < E) and to now + m minutes when it has lapsed (E ≤ now); the other fields
of the record stay. -/
theorem extendKey_sets_expiry (s : SQLiteStorage) (o k : String) (m : Int) (now : Time)
    (lic : License) (hget : Get s k = .ok lic) (hown : lic.Owner = o)
    (h5 : 5 ≤ m) (hmax : m ≤ 153722867) :
    (ExtendKey s o k m now).2 = none ∧
    Get (ExtendKey s o k m now).1 k =
      .ok { lic with ExpireTime :=
        if now < lic.ExpireTime then lic.ExpireTime + m * Minute else now + m * Minute } := by
  refine ⟨by rw [extendKey_of_owner s o k m now lic hget hown], ?_⟩
  rw [get_extendKey_of_owner s o k m now lic hget hown, minutes_eq_of_le m (by omega) hmax]
  congr 2
  by_cases h1 : now < lic.ExpireTime
  · rw [if_pos h1, if_neg (not_lt.mpr (le_of_lt h1))]
  · by_cases h2 : lic.ExpireTime < now
    · rw [if_neg h1, if_pos h2]
    · have h3 : lic.ExpireTime = now := le_antisymm (not_lt.mp h1) (not_lt.mp h2)
      rw [if_neg h1, if_neg h2, h3]

/-- The record of alice1 (expiry 1000) extended by 5 minutes at instant 0, while
live. -/
theorem extendKey_sets_expiry_witness :
    (ExtendKey sampleStorage "alice1" "a1b2-c3d4" 5 0).2 = none ∧
    Get (ExtendKey sampleStorage "alice1" "a1b2-c3d4" 5 0).1 "a1b2-c3d4" =
      .ok { Key := "a1b2-c3d4", Owner := "alice1", Project := "foo", OneTime := false,
            ExpireTime := 300000001000, CreatedAt := 0 } :=
  extendKey_sets_expiry sampleStorage "alice1" "a1b2-c3d4" 5 0
    { Key := "a1b2-c3d4", Owner := "alice1", Project := "foo", OneTime := false,
      ExpireTime := 1000, CreatedAt := 0 } rfl rfl (by decide) (by decide)

/-- C1 (the code at the failing input): with m = 153722868 ≥ 5 the int64 product
m * time.Minute wraps; the owner extends a live license (E = 1000, now = 0), the
call succeeds, and the new expire_time is not E + m minutes but an instant about
292 years before E. -/
theorem extendKey_expiry_wraps :
    (5 : Int) ≤ 153722868 ∧
    Get sampleStorage "a1b2-c3d4" =
      .ok { Key := "a1b2-c3d4", Owner := "alice1", Project := "foo", OneTime := false,
            ExpireTime := 1000, CreatedAt := 0 } ∧
    (ExtendKey sampleStorage "alice1" "a1b2-c3d4" 153722868 0).2 = none ∧
    Get (ExtendKey sampleStorage "alice1" "a1b2-c3d4" 153722868 0).1 "a1b2-c3d4" =
      .ok { Key := "a1b2-c3d4", Owner := "alice1", Project := "foo", OneTime := false,
            ExpireTime := -9223371993709550616, CreatedAt := 0 } ∧
    (-9223371993709550616 : Int) ≠ 1000 + 153722868 * Minute := by
  refine ⟨by decide, rfl, by decide, rfl, by decide⟩

/-! ## Validity -/

theorem isValid_of_record (s : SQLiteStorage) (k : String) (now : Time) (lic : License)
    (hget : Get s k = .ok lic) :
    IsValid s k now = (decide (now < lic.ExpireTime), none) := by
  unfold IsValid
  rw [hget]
  rfl

/-- The whole response of CheckLicense for a key with a record, with the two
clock readings t1 (in IsValid) and t2 (after the record is fetched). -/
theorem checkLicense_of_record (s : SQLiteStorage) (k : String) (t1 t2 : Time) (lic : License)
    (hk : k ≠ "") (hget : Get s k = .ok lic) :
    Handler.CheckLicense s (checkRequest k) t1 t2 =
      { status := 200,
        body := .check
          (if t1 < lic.ExpireTime then
            (if lic.ExpireTime < t2 then
              { Valid := false, ExpireTime := lic.ExpireTime, Message := "License expired" }
            else
              { Valid := true, ExpireTime := lic.ExpireTime, Message := "License is valid" })
          else
            { Valid := false, ExpireTime := zeroTime, Message := "" }) } := by
  unfold Handler.CheckLicense
  simp only [checkRequest, bne_self_eq_false, Bool.false_eq_true, if_false, beq_iff_eq, hk,
    isValid_of_record s k t1 lic hget, hget, Time.After, decide_eq_true_eq, gt_iff_lt]
  by_cases h1 : t1 < lic.ExpireTime
  · by_cases h2 : lic.ExpireTime < t2 <;> simp [h1, h2]
  · simp [h1]

theorem invalidLicense_of_owner (s : SQLiteStorage) (o k : String) (now : Time)
    (lic : License) (hget : Get s k = .ok lic) (hown : lic.Owner = o) :
    InvalidLicense s o k now =
      ({ s with licenses := (execUpdateExpire s.licenses now k o).1 }, none) := by
  have hfind := (get_ok_iff s k lic).1 hget
  unfold InvalidLicense
  simp only [beq_iff_eq]
  rw [if_neg (rowsAffected_pos s.licenses now k o lic hfind hown)]

theorem invalidLicense_of_not_owner (s : SQLiteStorage) (c k : String) (now : Time)
    (hu : UniqueKeys s) (hno : ∀ lic, Get s k = .ok lic → lic.Owner ≠ c) :
    InvalidLicense s c k now = (s, some "license not found or does not belong to user") := by
  unfold InvalidLicense
  simp only [execUpdateExpire_of_no_match s.licenses now k c (no_match_of_not_owner s c k hu hno)]
  rfl

theorem extendKey_of_not_owner (s : SQLiteStorage) (c k : String) (m : Int) (now : Time)
    (lic : License) (hget : Get s k = .ok lic) (hown : lic.Owner ≠ c) :
    ExtendKey s c k m now = (s, some "license does not belong to user") := by
  unfold ExtendKey
  rw [hget]
  simp [hown]

theorem extendKey_of_no_record (s : SQLiteStorage) (c k : String) (m : Int) (now : Time)
    (err : String) (hget : Get s k = .error err) :
    ExtendKey s c k m now = (s, some "license not found") := by
  have herr := ((get_error_iff s k err).1 hget).2
  unfold ExtendKey
  rw [hget, herr]
  rfl

theorem frameFor_refl (c : String) (rows : List License) : FrameFor c rows rows := by
  unfold FrameFor
  induction rows with
  | nil => exact List.Forall₂.nil
  | cons a rest ih => exact List.Forall₂.cons ⟨rfl, fun _ => rfl⟩ ih

theorem invalidLicense_storage (s : SQLiteStorage) (c k : String) (now : Time) :
    (InvalidLicense s c k now).1 =
      { s with licenses := (execUpdateExpire s.licenses now k c).1 } := by
  unfold InvalidLicense
  simp only [beq_iff_eq]
  split <;> rfl

theorem extendKey_storage (s : SQLiteStorage) (c k : String) (m : Int) (now : Time) :
    (ExtendKey s c k m now).1 = s ∨
    ∃ t, (ExtendKey s c k m now).1 =
      { s with licenses := (execUpdateExpire s.licenses t k c).1 } := by
  cases hget : Get s k with
  | error err => rw [extendKey_of_no_record s c k m now err hget]; exact Or.inl rfl
  | ok lic =>
    by_cases hown : lic.Owner = c
    · rw [extendKey_of_owner s c k m now lic hget hown]; exact Or.inr ⟨_, rfl⟩
    · rw [extendKey_of_not_owner s c k m now lic hget hown]; exact Or.inl rfl

theorem frameFor_invalidLicense (s : SQLiteStorage) (c k : String) (now : Time) :
    FrameFor c s.licenses (InvalidLicense s c k now).1.licenses := by
  rw [invalidLicense_storage]
  exact execUpdateExpire_frame s.licenses now k c

theorem frameFor_extendKey (s : SQLiteStorage) (c k : String) (m : Int) (now : Time) :
    FrameFor c s.licenses (ExtendKey s c k m now).1.licenses := by
  rcases extendKey_storage s c k m now with h | ⟨t, h⟩
  · rw [h]; exact frameFor_refl c s.licenses
  · rw [h]; exact execUpdateExpire_frame s.licenses t k c

theorem uniqueKeys_extendKey (s : SQLiteStorage) (c k : String) (m : Int) (now : Time)
    (h : UniqueKeys s) : UniqueKeys (ExtendKey s c k m now).1 := by
  rcases extendKey_storage s c k m now with h1 | ⟨t, h1⟩
  · rw [h1]; exact h
  · rw [h1]; simpa [UniqueKeys, keys_execUpdateExpire] using h

theorem users_extendKey (s : SQLiteStorage) (c k : String) (m : Int) (now : Time) :
    (ExtendKey s c k m now).1.users = s.users := by
  rcases extendKey_storage s c k m now with h | ⟨t, h⟩ <;> rw [h]

/-- C3: a caller c who is not the owner of the record of k (or names a key without
record) gets an error from InvalidLicense and from ExtendKey, and the storage
is what it was; and whoever calls, a row whose owner is not the caller is left
as it is by both operations, which change no field but expire_time. -/
theorem mutation_only_by_owner (s : SQLiteStorage) (c k : String) (m : Int) (now : Time)
    (hu : UniqueKeys s) (hno : ∀ lic, Get s k = .ok lic → lic.Owner ≠ c) :
    (InvalidLicense s c k now).2 = some "license not found or does not belong to user" ∧
    (InvalidLicense s c k now).1 = s ∧
    (ExtendKey s c k m now).2 ≠ none ∧
    (ExtendKey s c k m now).1 = s ∧
    (∀ c2 k2 m2 t2, FrameFor c2 s.licenses (InvalidLicense s c2 k2 t2).1.licenses ∧
      (InvalidLicense s c2 k2 t2).1.users = s.users ∧
      FrameFor c2 s.licenses (ExtendKey s c2 k2 m2 t2).1.licenses ∧
      (ExtendKey s c2 k2 m2 t2).1.users = s.users) := by
  rw [invalidLicense_of_not_owner s c k now hu hno]
  refine ⟨rfl, rfl, ?_, ?_, ?_⟩
  · cases hget : Get s k with
    | error err => rw [extendKey_of_no_record s c k m now err hget]; simp
    | ok lic => rw [extendKey_of_not_owner s c k m now lic hget (hno lic hget)]; simp
  · cases hget : Get s k with
    | error err => rw [extendKey_of_no_record s c k m now err hget]
    | ok lic => rw [extendKey_of_not_owner s c k m now lic hget (hno lic hget)]
  · intro c2 k2 m2 t2
    refine ⟨frameFor_invalidLicense s c2 k2 t2, ?_, frameFor_extendKey s c2 k2 m2 t2,
      users_extendKey s c2 k2 m2 t2⟩
    rw [invalidLicense_storage]

/-- Witness of C3: mallory on the key of alice1 in the sample storage. -/
theorem mutation_only_by_owner_witness :
    (InvalidLicense sampleStorage mallory "a1b2-c3d4" 7).2 =
      some "license not found or does not belong to user" ∧
    (InvalidLicense sampleStorage mallory "a1b2-c3d4" 7).1 = sampleStorage ∧
    (ExtendKey sampleStorage mallory "a1b2-c3d4" 5 7).2 ≠ none ∧
    (ExtendKey sampleStorage mallory "a1b2-c3d4" 5 7).1 = sampleStorage ∧
    (∀ c2 k2 m2 t2,
      FrameFor c2 sampleStorage.licenses (InvalidLicense sampleStorage c2 k2 t2).1.licenses ∧
      (InvalidLicense sampleStorage c2 k2 t2).1.users = sampleStorage.users ∧
      FrameFor c2 sampleStorage.licenses (ExtendKey sampleStorage c2 k2 m2 t2).1.licenses ∧
      (ExtendKey sampleStorage c2 k2 m2 t2).1.users = sampleStorage.users) :=
  mutation_only_by_owner sampleStorage mallory "a1b2-c3d4" 5 7
    (by simp [UniqueKeys, sampleStorage])
    (by
      intro lic hget
      have h : lic = { Key := "a1b2-c3d4", Owner := "alice1", Project := "foo", OneTime := false,
                       ExpireTime := 1000, CreatedAt := 0 } :=
        (Except.ok.inj (hget.symm.trans (rfl : Get sampleStorage "a1b2-c3d4" = .ok _))).symm ▸ rfl
      rw [h]
      decide)

/-! ## Indistinguishability of a foreign key and a missing key -/

theorem handler_invalidKey_of_error (s : SQLiteStorage) (c k : String) (now : Time)
    (hc : c ≠ "") (hk : k ≠ "") (err : String)
    (h : InvalidLicense s c k now = (s, some err)) :
    Handler.InvalidKey s (invalidRequest c k) now = (s, httpError "Internal server error" 500) := by
  unfold Handler.InvalidKey
  simp only [invalidRequest, bne_self_eq_false, Bool.false_eq_true, if_false, beq_iff_eq, hc, hk, h]

theorem handler_extendKey_of_denied (s : SQLiteStorage) (c k : String) (m : Int) (now : Time)
    (hc : c ≠ "") (hk : k ≠ "") (hm : 5 ≤ m) (err : String)
    (h : ExtendKey s c k m now = (s, some err))
    (herr : (stringsContains err "license not found" ||
      stringsContains err "does not belong to user") = true) :
    Handler.ExtendKey s (extendRequest c k m) now =
      (s, httpError "License not found or access denied" 403) := by
  unfold Handler.ExtendKey
  simp only [extendRequest, bne_self_eq_false, Bool.false_eq_true, if_false, beq_iff_eq, hc, hk,
    not_lt.mpr hm, h, herr, if_true]

/-- Counterexample to C4 as stated: at the storage level ExtendKey tells a key of
another owner from a missing key; mallory gets "license does not belong to
user" for the key of alice1 and "license not found" for a key without record. -/
theorem extendKey_errors_differ :
    Get sampleStorage "a1b2-c3d4" =
      .ok { Key := "a1b2-c3d4", Owner := "alice1", Project := "foo", OneTime := false,
            ExpireTime := 1000, CreatedAt := 0 } ∧
    Get sampleStorage "ffff-0000" = .error "license not found" ∧
    (ExtendKey sampleStorage mallory "a1b2-c3d4" 5 0).2 = some "license does not belong to user" ∧
    (ExtendKey sampleStorage mallory "ffff-0000" 5 0).2 = some "license not found" ∧
    (ExtendKey sampleStorage mallory "a1b2-c3d4" 5 0).2 ≠
      (ExtendKey sampleStorage mallory "ffff-0000" 5 0).2 := by
  refine ⟨rfl, rfl, by decide, by decide, by decide⟩

/-- C4 (amended): for a caller c, a key k1 whose record belongs to someone else,
a key k2 without record and m ≥ 5: storage.InvalidLicense returns the same
error and the unchanged storage for both keys, the handler InvalidKey answers
both with the same response (500), and the handler ExtendKey answers both with
the same response (403, "License not found or access denied"); storage.ExtendKey
itself returns two different errors, which only the handler merges. -/
theorem foreign_key_indistinguishable (s : SQLiteStorage) (c k1 k2 : String) (m : Int)
    (now : Time) (lic : License) (err : String) (hu : UniqueKeys s)
    (hc : c ≠ "") (hk1 : k1 ≠ "") (hk2 : k2 ≠ "") (hm : 5 ≤ m)
    (h1 : Get s k1 = .ok lic) (hown : lic.Owner ≠ c) (h2 : Get s k2 = .error err) :
    InvalidLicense s c k1 now = InvalidLicense s c k2 now ∧
    (InvalidLicense s c k1 now).2 = some "license not found or does not belong to user" ∧
    Handler.InvalidKey s (invalidRequest c k1) now = (s, httpError "Internal server error" 500) ∧
    Handler.InvalidKey s (invalidRequest c k2) now = (s, httpError "Internal server error" 500) ∧
    Handler.ExtendKey s (extendRequest c k1 m) now =
      (s, httpError "License not found or access denied" 403) ∧
    Handler.ExtendKey s (extendRequest c k2 m) now =
      (s, httpError "License not found or access denied" 403) ∧
    ExtendKey s c k1 m now = (s, some "license does not belong to user") ∧
    ExtendKey s c k2 m now = (s, some "license not found") := by
  have hno1 : ∀ l, Get s k1 = .ok l → l.Owner ≠ c := by
    intro l hl
    rw [h1] at hl
    exact (Except.ok.inj hl) ▸ hown
  have hno2 : ∀ l, Get s k2 = .ok l → l.Owner ≠ c := by
    intro l hl
    rw [h2] at hl
    cases hl
  have hi1 := invalidLicense_of_not_owner s c k1 now hu hno1
  have hi2 := invalidLicense_of_not_owner s c k2 now hu hno2
  have he1 := extendKey_of_not_owner s c k1 m now lic h1 hown
  have he2 := extendKey_of_no_record s c k2 m now err h2
  refine ⟨by rw [hi1, hi2], by rw [hi1], handler_invalidKey_of_error s c k1 now hc hk1 _ hi1,
    handler_invalidKey_of_error s c k2 now hc hk2 _ hi2,
    handler_extendKey_of_denied s c k1 m now hc hk1 hm _ he1 (by decide),
    handler_extendKey_of_denied s c k2 m now hc hk2 hm _ he2 (by decide), he1, he2⟩

/-- Witness of C4: mallory on the key of alice1 and on a key without record. -/
theorem foreign_key_indistinguishable_witness :
    InvalidLicense sampleStorage mallory "a1b2-c3d4" 7 =
      InvalidLicense sampleStorage mallory "ffff-0000" 7 ∧
    (InvalidLicense sampleStorage mallory "a1b2-c3d4" 7).2 =
      some "license not found or does not belong to user" ∧
    Handler.InvalidKey sampleStorage (invalidRequest mallory "a1b2-c3d4") 7 =
      (sampleStorage, httpError "Internal server error" 500) ∧
    Handler.InvalidKey sampleStorage (invalidRequest mallory "ffff-0000") 7 =
      (sampleStorage, httpError "Internal server error" 500) ∧
    Handler.ExtendKey sampleStorage (extendRequest mallory "a1b2-c3d4" 5) 7 =
      (sampleStorage, httpError "License not found or access denied" 403) ∧
    Handler.ExtendKey sampleStorage (extendRequest mallory "ffff-0000" 5) 7 =
      (sampleStorage, httpError "License not found or access denied" 403) ∧
    ExtendKey sampleStorage mallory "a1b2-c3d4" 5 7 =
      (sampleStorage, some "license does not belong to user") ∧
    ExtendKey sampleStorage mallory "ffff-0000" 5 7 = (sampleStorage, some "license not found") :=
  foreign_key_indistinguishable sampleStorage mallory "a1b2-c3d4" "ffff-0000" 5 7
    { Key := "a1b2-c3d4", Owner := "alice1", Project := "foo", OneTime := false,
      ExpireTime := 1000, CreatedAt := 0 } "license not found"
    (by simp [UniqueKeys, sampleStorage]) (by decide) (by decide) (by decide) (by decide)
    rfl (by decide) rfl

/-! ## Invalidation -/

/-- C5: when the owner o of the record of k calls InvalidLicense at instant t1,
the call succeeds and sets expire_time to t1, and a validity check of k on the
resulting storage at any instant t2 ≥ t1 reports false, from storage.IsValid
and in the valid field of the CheckLicense response. -/
theorem invalid_then_not_valid (s : SQLiteStorage) (o k : String) (t1 t2 t3 : Time)
    (lic : License) (hk : k ≠ "") (hget : Get s k = .ok lic) (hown : lic.Owner = o)
    (h12 : t1 ≤ t2) :
    (InvalidLicense s o k t1).2 = none ∧
    Get (InvalidLicense s o k t1).1 k = .ok { lic with ExpireTime := t1 } ∧
    IsValid (InvalidLicense s o k t1).1 k t2 = (false, none) ∧
    validField (Handler.CheckLicense (InvalidLicense s o k t1).1 (checkRequest k) t2 t3) =
      some false := by
  have hs := invalidLicense_of_owner s o k t1 lic hget hown
  have hget1 : Get (InvalidLicense s o k t1).1 k = .ok { lic with ExpireTime := t1 } := by
    rw [hs, get_ok_iff]
    exact find?_execUpdateExpire s.licenses t1 k o lic ((get_ok_iff s k lic).1 hget) hown
  have hnot : ¬ t2 < t1 := not_lt.mpr h12
  refine ⟨by rw [hs], hget1, ?_, ?_⟩
  · rw [isValid_of_record _ k t2 _ hget1]
    simp [hnot]
  · rw [checkLicense_of_record _ k t2 t3 _ hk hget1]
    simp [validField, hnot]

/-- Witness of C5: alice1 invalidates her license at instant 7, checked at 7. -/
theorem invalid_then_not_valid_witness :
    (InvalidLicense sampleStorage "alice1" "a1b2-c3d4" 7).2 = none ∧
    Get (InvalidLicense sampleStorage "alice1" "a1b2-c3d4" 7).1 "a1b2-c3d4" =
      .ok { Key := "a1b2-c3d4", Owner := "alice1", Project := "foo", OneTime := false,
            ExpireTime := 7, CreatedAt := 0 } ∧
    IsValid (InvalidLicense sampleStorage "alice1" "a1b2-c3d4" 7).1 "a1b2-c3d4" 7 = (false, none) ∧
    validField (Handler.CheckLicense (InvalidLicense sampleStorage "alice1" "a1b2-c3d4" 7).1
      (checkRequest "a1b2-c3d4") 7 8) = some false :=
  invalid_then_not_valid sampleStorage "alice1" "a1b2-c3d4" 7 7 8
    { Key := "a1b2-c3d4", Owner := "alice1", Project := "foo", OneTime := false,
      ExpireTime := 1000, CreatedAt := 0 } (by decide) rfl rfl (by decide)

/-! ## Issuance and the lower bound on durations -/

/-- The result of storage.Add when the generator delivers a key that no row has. -/
theorem add_of_fresh_key (s : SQLiteStorage) (license : License) (entropy : List Byte)
    (dbNow : Time) (key : String) (hgen : GenerateLicenseKey 0 entropy = .ok key)
    (hfresh : ∀ l ∈ s.licenses, l.Key ≠ key) :
    Add s license entropy dbNow =
      ({ s with licenses := s.licenses ++ [{ license with Key := key, CreatedAt := dbNow }] },
       .ok key) := by
  have hany : s.licenses.any (fun l => l.Key == key) = false := by
    rw [List.any_eq_false]
    intro l hl
    simpa using hfresh l hl
  unfold Add
  rw [hgen]
  simp only [execInsertLicense, hany, Bool.false_eq_true, if_false]

/-- The generator succeeds when the entropy source has 16 bytes to give. -/
theorem generateLicenseKey_default_ok (entropy : List Byte) (h : 16 ≤ entropy.length) :
    ∃ key, GenerateLicenseKey 0 entropy = .ok key := by
  unfold GenerateLicenseKey randRead
  have h1 : ¬ entropy.length < 16 := by omega
  simp [h1]

theorem handler_addLicense_of_short (s : SQLiteStorage) (c : String) (req : AddLicenseRequest)
    (now now2 : Time) (entropy : List Byte) (dbNow : Time) (hc : c ≠ "")
    (hd : req.ExpireTime < 5) :
    Handler.AddLicense s (addRequest c req) now now2 entropy dbNow =
      (s, httpError "Expire time must be more than 5 minutes" 400) := by
  unfold Handler.AddLicense
  simp only [addRequest, bne_self_eq_false, Bool.false_eq_true, if_false, beq_iff_eq, hc, hd,
    if_true]

theorem handler_addLicense_of_fresh_key (s : SQLiteStorage) (c : String)
    (req : AddLicenseRequest) (now now2 : Time) (entropy : List Byte) (dbNow : Time)
    (key : String) (hc : c ≠ "") (hd : 5 ≤ req.ExpireTime)
    (hgen : GenerateLicenseKey 0 entropy = .ok key) (hfresh : ∀ l ∈ s.licenses, l.Key ≠ key) :
    Handler.AddLicense s (addRequest c req) now now2 entropy dbNow =
      ({ s with licenses := s.licenses ++
          [{ Key := key, Owner := c, Project := req.Product, OneTime := req.OneTime,
             ExpireTime := now + minutes req.ExpireTime, CreatedAt := dbNow }] },
       { status := 201, body := .message "License added successfully" key }) := by
  unfold Handler.AddLicense
  simp only [addRequest, bne_self_eq_false, Bool.false_eq_true, if_false, beq_iff_eq, hc,
    not_lt.mpr hd, add_of_fresh_key s _ entropy dbNow key hgen hfresh, Time.Add]

theorem handler_extendKey_of_short (s : SQLiteStorage) (c k : String) (m : Int) (now : Time)
    (hc : c ≠ "") (hk : k ≠ "") (hm : m < 5) :
    Handler.ExtendKey s (extendRequest c k m) now =
      (s, httpError "Additional time must be more than 5 minutes" 400) := by
  unfold Handler.ExtendKey
  simp only [extendRequest, bne_self_eq_false, Bool.false_eq_true, if_false, beq_iff_eq, hc, hk,
    hm, if_true]

theorem handler_extendKey_of_owner (s : SQLiteStorage) (c k : String) (m : Int) (now : Time)
    (lic : License) (hc : c ≠ "") (hk : k ≠ "") (hm : 5 ≤ m)
    (hget : Get s k = .ok lic) (hown : lic.Owner = c) :
    Handler.ExtendKey s (extendRequest c k m) now =
      ((ExtendKey s c k m now).1,
       { status := 200, body := .message "License extended successfully" k }) := by
  unfold Handler.ExtendKey
  simp only [extendRequest, bne_self_eq_false, Bool.false_eq_true, if_false, beq_iff_eq, hc, hk,
    not_lt.mpr hm, extendKey_of_owner s c k m now lic hget hown]

/-- C6: for an authenticated caller c and an integer duration d. The handler
AddLicense, on any storage, answers d < 5 with a 400 validation error and leaves
the storage as it is, and for d ≥ 5 answers 201 and stores the new record,
provided the generator delivers a key and the INSERT meets no existing key. The
handler ExtendKey answers d < 5 with a 400 validation error and leaves the
storage as it is, and for d ≥ 5 on a key k whose record c owns answers 200,
from a storage call without error that leaves the record of k with its new
expiry. -/
theorem duration_lower_bound (s : SQLiteStorage) (c : String) (d : Int)
    (req : AddLicenseRequest) (now now2 : Time) (entropy : List Byte) (dbNow : Time)
    (hc : c ≠ "") (hreq : req.ExpireTime = d) :
    (d < 5 →
      Handler.AddLicense s (addRequest c req) now now2 entropy dbNow =
        (s, httpError "Expire time must be more than 5 minutes" 400)) ∧
    (5 ≤ d →
      ∀ key, GenerateLicenseKey 0 entropy = .ok key → (∀ l ∈ s.licenses, l.Key ≠ key) →
        Handler.AddLicense s (addRequest c req) now now2 entropy dbNow =
          ({ s with licenses := s.licenses ++
              [{ Key := key, Owner := c, Project := req.Product, OneTime := req.OneTime,
                 ExpireTime := now + minutes d, CreatedAt := dbNow }] },
           { status := 201, body := .message "License added successfully" key })) ∧
    (∀ k, k ≠ "" → d < 5 →
      Handler.ExtendKey s (extendRequest c k d) now =
        (s, httpError "Additional time must be more than 5 minutes" 400)) ∧
    (∀ k lic, k ≠ "" → Get s k = .ok lic → lic.Owner = c → 5 ≤ d →
      (Handler.ExtendKey s (extendRequest c k d) now).2 =
        { status := 200, body := .message "License extended successfully" k } ∧
      (ExtendKey s c k d now).2 = none ∧
      (Handler.ExtendKey s (extendRequest c k d) now).1 = (ExtendKey s c k d now).1 ∧
      Get (Handler.ExtendKey s (extendRequest c k d) now).1 k =
        .ok { lic with ExpireTime :=
          if lic.ExpireTime < now then now + minutes d else lic.ExpireTime + minutes d }) := by
  subst hreq
  refine ⟨?_, ?_, ?_, ?_⟩
  · intro hd
    exact handler_addLicense_of_short s c req now now2 entropy dbNow hc hd
  · intro hd key hgen hfresh
    exact handler_addLicense_of_fresh_key s c req now now2 entropy dbNow key hc hd hgen hfresh
  · intro k hk hd
    exact handler_extendKey_of_short s c k _ now hc hk hd
  · intro k lic hk hget hown hd
    rw [handler_extendKey_of_owner s c k _ now lic hc hk hd hget hown]
    refine ⟨rfl, ?_, rfl, ?_⟩
    · rw [extendKey_of_owner s c k _ now lic hget hown]
    · exact get_extendKey_of_owner s c k _ now lic hget hown

/-- Witness of C6: alice1 issues her first license on the empty storage with
d = 5, the generator reading sixteen bytes 0xab, and is refused with d = 4; on
the sample storage she extends her license with d = 5 and is refused with
d = 4. -/
theorem duration_lower_bound_witness :
    Handler.AddLicense emptyStorage (addRequest "alice1" (sampleAdd 4)) 0 0 sampleEntropy 0 =
      (emptyStorage, httpError "Expire time must be more than 5 minutes" 400) ∧
    Handler.AddLicense emptyStorage (addRequest "alice1" (sampleAdd 5)) 0 0 sampleEntropy 0 =
      ({ emptyStorage with licenses := emptyStorage.licenses ++
          [{ Key := "abab-abab-abab-abab-abab-abab-abab-abab", Owner := "alice1",
             Project := "foo", OneTime := false, ExpireTime := 0 + minutes 5, CreatedAt := 0 }] },
       { status := 201,
         body := .message "License added successfully"
           "abab-abab-abab-abab-abab-abab-abab-abab" }) ∧
    Handler.ExtendKey sampleStorage (extendRequest "alice1" "a1b2-c3d4" 4) 0 =
      (sampleStorage, httpError "Additional time must be more than 5 minutes" 400) ∧
    (Handler.ExtendKey sampleStorage (extendRequest "alice1" "a1b2-c3d4" 5) 0).2 =
      { status := 200, body := .message "License extended successfully" "a1b2-c3d4" } ∧
    (ExtendKey sampleStorage "alice1" "a1b2-c3d4" 5 0).2 = none :=
  have h4 := duration_lower_bound emptyStorage "alice1" 4 (sampleAdd 4) 0 0 sampleEntropy 0
    (by decide) rfl
  have h5 := duration_lower_bound emptyStorage "alice1" 5 (sampleAdd 5) 0 0 sampleEntropy 0
    (by decide) rfl
  have e4 := duration_lower_bound sampleStorage "alice1" 4 (sampleAdd 4) 0 0 sampleEntropy 0
    (by decide) rfl
  have e5 := (duration_lower_bound sampleStorage "alice1" 5 (sampleAdd 5) 0 0 sampleEntropy 0
    (by decide) rfl).2.2.2 "a1b2-c3d4"
    { Key := "a1b2-c3d4", Owner := "alice1", Project := "foo", OneTime := false,
      ExpireTime := 1000, CreatedAt := 0 } (by decide) rfl rfl (by decide)
  ⟨h4.1 (by decide),
   h5.2.1 (by decide) "abab-abab-abab-abab-abab-abab-abab-abab" rfl (by simp [emptyStorage]),
   e4.2.2.1 "a1b2-c3d4" (by decide) (by decide), e5.1, e5.2.1⟩

/-! ## Durations in int64 nanoseconds -/

theorem minutes_pos_of_le (m : Int) (h5 : 5 ≤ m) (hmax : m ≤ 153722867) : 0 < minutes m := by
  rw [minutes_eq_of_le m (by omega) hmax]
  unfold Minute
  omega

/-- While the product does not wrap (5 ≤ m ≤ 153722867), the license is active
after ExtendKey by its owner, whether it was live or lapsed before. -/
theorem extendKey_active_in_range (s : SQLiteStorage) (o k : String) (m : Int) (now : Time)
    (lic : License) (hget : Get s k = .ok lic) (hown : lic.Owner = o)
    (h5 : 5 ≤ m) (hmax : m ≤ 153722867) :
    IsValid (ExtendKey s o k m now).1 k now = (true, none) := by
  have hpos := minutes_pos_of_le m h5 hmax
  rw [isValid_of_record _ k now _ (get_extendKey_of_owner s o k m now lic hget hown)]
  have hlt : now < (if lic.ExpireTime < now then now + minutes m
      else lic.ExpireTime + minutes m) := by
    by_cases h : lic.ExpireTime < now
    · rw [if_pos h]
      exact lt_add_of_pos_right now hpos
    · rw [if_neg h]
      exact lt_of_le_of_lt (not_lt.mp h) (lt_add_of_pos_right _ hpos)
  simp [hlt]

/-- While the product does not wrap (5 ≤ d ≤ 153722867), the expiry that
AddLicense stores is after the instant of the call. -/
theorem addLicense_expiry_in_range (now : Time) (d : Int) (h5 : 5 ≤ d) (hmax : d ≤ 153722867) :
    Time.Add now (minutes d) = now + d * Minute ∧ now < Time.Add now (minutes d) := by
  have hpos := minutes_pos_of_le d h5 hmax
  refine ⟨?_, lt_add_of_pos_right now hpos⟩
  rw [Time.Add, minutes_eq_of_le d (by omega) hmax]

/-- C7 (the code at the failing input): with d = m = 153722868 ≥ 5 the int64
product with time.Minute wraps to a negative duration. AddLicense answers 201
and stores a license whose expire_time is before the instant of the call, and
ExtendKey by the owner answers 200 and turns a live license (valid before the
call) into a lapsed one: in both cases the license is not Active. -/
theorem wrapped_minutes_store_lapsed_license :
    (5 : Int) ≤ 153722868 ∧ (153722868 : Int) < 2 ^ 63 ∧
    minutes 153722868 = -9223371993709551616 ∧
    (Handler.AddLicense emptyStorage (addRequest "alice1" (sampleAdd 153722868))
        sampleNow sampleNow sampleEntropy sampleNow).2 =
      { status := 201,
        body := .message "License added successfully"
          "abab-abab-abab-abab-abab-abab-abab-abab" } ∧
    Get (Handler.AddLicense emptyStorage (addRequest "alice1" (sampleAdd 153722868))
        sampleNow sampleNow sampleEntropy sampleNow).1
        "abab-abab-abab-abab-abab-abab-abab-abab" =
      .ok { Key := "abab-abab-abab-abab-abab-abab-abab-abab", Owner := "alice1",
            Project := "foo", OneTime := false, ExpireTime := -7523371993709551616,
            CreatedAt := sampleNow } ∧
    IsValid (Handler.AddLicense emptyStorage (addRequest "alice1" (sampleAdd 153722868))
        sampleNow sampleNow sampleEntropy sampleNow).1
        "abab-abab-abab-abab-abab-abab-abab-abab" sampleNow = (false, none) ∧
    IsValid sampleStorage "a1b2-c3d4" 0 = (true, none) ∧
    (Handler.ExtendKey sampleStorage (extendRequest "alice1" "a1b2-c3d4" 153722868) 0).2 =
      { status := 200, body := .message "License extended successfully" "a1b2-c3d4" } ∧
    IsValid (Handler.ExtendKey sampleStorage (extendRequest "alice1" "a1b2-c3d4" 153722868) 0).1
      "a1b2-c3d4" 0 = (false, none) := by
  refine ⟨by decide, by decide, by decide, by decide, rfl, by decide, by decide, by decide,
    by decide⟩

/-! ## The response of CheckLicense -/

/-- For a key with a record whose expiry is not after now, CheckLicense answers
valid = false with the zero instant and an empty message. -/
theorem checkLicense_of_lapsed (s : SQLiteStorage) (k : String) (t1 t2 : Time) (lic : License)
    (hk : k ≠ "") (hget : Get s k = .ok lic) (h : lic.ExpireTime ≤ t1) :
    Handler.CheckLicense s (checkRequest k) t1 t2 =
      { status := 200,
        body := .check { Valid := false, ExpireTime := zeroTime, Message := "" } } := by
  rw [checkLicense_of_record s k t1 t2 lic hk hget, if_neg (not_lt.mpr h)]

/-- For a key with a record whose expiry is after now, CheckLicense answers
valid = true with the expiry of the record and the message "License is valid". -/
theorem checkLicense_of_live (s : SQLiteStorage) (k : String) (now : Time) (lic : License)
    (hk : k ≠ "") (hget : Get s k = .ok lic) (h : now < lic.ExpireTime) :
    Handler.CheckLicense s (checkRequest k) now now =
      { status := 200,
        body := .check { Valid := true, ExpireTime := lic.ExpireTime,
                         Message := "License is valid" } } := by
  rw [checkLicense_of_record s k now now lic hk hget, if_pos h,
    if_neg (not_lt.mpr (le_of_lt h))]

/-- C8 (the code at the failing input): the sample license exists and expired at
instant 1000; checked at instant 2000, CheckLicense answers 200 with
valid = false, the zero instant instead of the expiry of the record, and an
empty message instead of "License expired". -/
theorem checkLicense_expired_record_response :
    Get sampleStorage "a1b2-c3d4" =
      .ok { Key := "a1b2-c3d4", Owner := "alice1", Project := "foo", OneTime := false,
            ExpireTime := 1000, CreatedAt := 0 } ∧
    Handler.CheckLicense sampleStorage (checkRequest "a1b2-c3d4") 2000 2000 =
      { status := 200,
        body := .check { Valid := false, ExpireTime := zeroTime, Message := "" } } ∧
    zeroTime ≠ 1000 ∧ "" ≠ "License expired" := by
  refine ⟨rfl, by decide, by decide, by decide⟩

/-! ## Login -/

/-- C9 (the code on the two failures): for non-empty credentials, Login with an
identity that has no account answers 400 "Failed to login", and Login with a
registered identity and a secret that bcrypt rejects answers 401 "Failed to
login. Incorrect login or password": the two responses differ in status and in
message. -/
theorem login_failures_differ (c : Crypto) (s : SQLiteStorage) (now : Time)
    (unknown known password err : String) (user : User)
    (h1 : unknown ≠ "") (h2 : known ≠ "") (hp : password ≠ "")
    (hunknown : GetUser s unknown = .error err) (hknown : GetUser s known = .ok user)
    (hwrong : c.bcryptCompare user.PasswordHash password = false) :
    Handler.Login c s (credentialsRequest unknown password) now =
      httpError "Failed to login" 400 ∧
    Handler.Login c s (credentialsRequest known password) now =
      httpError "Failed to login. Incorrect login or password" 401 ∧
    Handler.Login c s (credentialsRequest unknown password) now ≠
      Handler.Login c s (credentialsRequest known password) now := by
  have e1 : Handler.Login c s (credentialsRequest unknown password) now =
      httpError "Failed to login" 400 := by
    unfold Handler.Login
    simp only [credentialsRequest, bne_self_eq_false, Bool.false_eq_true, if_false, beq_iff_eq,
      Bool.or_eq_true, h1, hp, or_self, hunknown]
  have e2 : Handler.Login c s (credentialsRequest known password) now =
      httpError "Failed to login. Incorrect login or password" 401 := by
    unfold Handler.Login
    simp only [credentialsRequest, bne_self_eq_false, Bool.false_eq_true, if_false, beq_iff_eq,
      Bool.or_eq_true, h2, hp, or_self, hknown, hwrong, Bool.not_false, if_true]
  refine ⟨e1, e2, ?_⟩
  rw [e1, e2]
  decide

/-- Witness of C9: the sample storage has the account alice1 and no account
mallory; the secret is wrong for alice1. -/
theorem login_failures_differ_witness :
    Handler.Login sampleCrypto sampleStorage (credentialsRequest mallory "wrongpass1") 0 =
      httpError "Failed to login" 400 ∧
    Handler.Login sampleCrypto sampleStorage (credentialsRequest "alice1" "wrongpass1") 0 =
      httpError "Failed to login. Incorrect login or password" 401 ∧
    Handler.Login sampleCrypto sampleStorage (credentialsRequest mallory "wrongpass1") 0 ≠
      Handler.Login sampleCrypto sampleStorage (credentialsRequest "alice1" "wrongpass1") 0 :=
  login_failures_differ sampleCrypto sampleStorage 0 mallory "alice1" "wrongpass1"
    "failed to get user: sql: no rows in result set. No user"
    { Id := 1, Login := "alice1", PasswordHash := "h:password123" }
    (by decide) (by decide) (by decide) rfl rfl (by decide)

/-! ## Registration -/

theorem isLoginFree_of_registered (s : SQLiteStorage) (login : String)
    (h : ∃ u ∈ s.users, u.Login = login) : IsLoginFree s login = (false, none) := by
  unfold IsLoginFree
  cases hfind : s.users.find? (fun u => u.Login == login) with
  | some u => rfl
  | none =>
    obtain ⟨u, hu, hlogin⟩ := h
    rw [List.find?_eq_none] at hfind
    have := hfind u hu
    simp [hlogin] at this

/-- Counterexample to C10 as stated: the identity "логин" has 5 characters, fewer
than 6, but 10 bytes in UTF-8; Register accepts it, answers 201 and creates the
account. -/
theorem register_accepts_five_characters :
    "логин".length = 5 ∧ "логин".utf8ByteSize = 10 ∧
    Handler.Register sampleCrypto emptyStorage (credentialsRequest "логин" "password123") 0 =
      ({ licenses := [],
         users := [{ Id := 1, Login := "логин", PasswordHash := "h:password123" }] },
       { status := 201,
         body := .account { Ok := true, Message := "User successfully created",
                            AccessToken := "token:логин" } }) := by
  refine ⟨by decide, by decide, by decide⟩

/-- C10 (amended): Register answers 400 and leaves the storage as it is when the
identity or the secret is empty, or the UTF-8 encoding of the identity is
shorter than 6 bytes, or that of the secret is shorter than 8 bytes; and
Register with an identity that already has an account answers with an error
(400 or 500) and leaves the storage as it is. -/
theorem register_validation (c : Crypto) (s : SQLiteStorage) (login password : String)
    (now : Time) :
    ((login = "" ∨ password = "") →
      Handler.Register c s (credentialsRequest login password) now =
        (s, httpError "Login and Password are required" 400)) ∧
    ((login ≠ "" ∧ password ≠ "" ∧ (login.utf8ByteSize < 6 ∨ password.utf8ByteSize < 8)) →
      Handler.Register c s (credentialsRequest login password) now =
        (s, httpError "Login and/or Password invalid" 400)) ∧
    ((∃ u ∈ s.users, u.Login = login) →
      (Handler.Register c s (credentialsRequest login password) now).1 = s ∧
      ∃ msg code, (code = 400 ∨ code = 500) ∧
        (Handler.Register c s (credentialsRequest login password) now).2 =
          httpError msg code) := by
  refine ⟨?_, ?_, ?_⟩
  · intro h
    unfold Handler.Register
    simp only [credentialsRequest, bne_self_eq_false, Bool.false_eq_true, if_false, beq_iff_eq,
      Bool.or_eq_true, h, if_true]
  · rintro ⟨h1, h2, h3⟩
    unfold Handler.Register
    simp only [credentialsRequest, bne_self_eq_false, Bool.false_eq_true, if_false, beq_iff_eq,
      Bool.or_eq_true, h1, h2, or_self, decide_eq_true_eq, h3, if_true]
  · intro hreg
    have hfree := isLoginFree_of_registered s login hreg
    unfold Handler.Register
    simp only [credentialsRequest, bne_self_eq_false, Bool.false_eq_true, if_false, beq_iff_eq,
      Bool.or_eq_true, decide_eq_true_eq, hfree, Bool.not_false, if_true]
    split
    · exact ⟨rfl, _, _, Or.inl rfl, rfl⟩
    · split
      · exact ⟨rfl, _, _, Or.inl rfl, rfl⟩
      · split
        · exact ⟨rfl, _, _, Or.inr rfl, rfl⟩
        · exact ⟨rfl, _, _, Or.inl rfl, rfl⟩

/-- Witness of C10: an empty secret, a 5-byte identity, a 5-byte secret, and the
identity alice1, which has an account in the sample storage. -/
theorem register_validation_witness :
    Handler.Register sampleCrypto sampleStorage (credentialsRequest "alice2" "") 0 =
      (sampleStorage, httpError "Login and Password are required" 400) ∧
    Handler.Register sampleCrypto sampleStorage (credentialsRequest "short" "password123") 0 =
      (sampleStorage, httpError "Login and/or Password invalid" 400) ∧
    Handler.Register sampleCrypto sampleStorage (credentialsRequest "alice2" "short") 0 =
      (sampleStorage, httpError "Login and/or Password invalid" 400) ∧
    (Handler.Register sampleCrypto sampleStorage (credentialsRequest "alice1" "password123") 0).1 =
      sampleStorage ∧
    ∃ msg code, (code = 400 ∨ code = 500) ∧
      (Handler.Register sampleCrypto sampleStorage (credentialsRequest "alice1" "password123") 0).2 =
        httpError msg code :=
  ⟨(register_validation sampleCrypto sampleStorage "alice2" "" 0).1 (Or.inr rfl),
   (register_validation sampleCrypto sampleStorage "short" "password123" 0).2.1
     ⟨by decide, by decide, Or.inl (by decide)⟩,
   (register_validation sampleCrypto sampleStorage "alice2" "short" 0).2.1
     ⟨by decide, by decide, Or.inr (by decide)⟩,
   (register_validation sampleCrypto sampleStorage "alice1" "password123" 0).2.2
     ⟨_, List.mem_singleton.2 rfl, rfl⟩⟩

/-! ## The format of a generated key -/

theorem blocksOfFour_of_ne_nil (l : List Char) (h : l ≠ []) :
    blocksOfFour l = l.take 4 :: blocksOfFour (l.drop 4) := by
  match l, h with
  | [a], _ => simp [blocksOfFour]
  | [a, b], _ => simp [blocksOfFour]
  | [a, b, c], _ => simp [blocksOfFour]
  | a :: b :: c :: d :: rest, _ => simp [blocksOfFour]

theorem intercalate_dash_cons (b : List Char) (bs : List (List Char)) :
    ['-'].intercalate (b :: bs) = b ++ (bs.map (fun x => '-' :: x)).flatten := by
  induction bs generalizing b with
  | nil => simp [List.intercalate]
  | cons c cs ih =>
    have h := ih c
    simp only [List.intercalate] at h ⊢
    rw [List.intersperse_cons₂, List.flatten_cons, List.flatten_cons, h]
    simp

theorem formatLoop_of_pos (key : List Char) (fuel i : Nat) (acc : List Char)
    (hi : 0 < i) (hfuel : key.length ≤ i + 4 * fuel) :
    formatLoop key fuel i acc =
      acc ++ ((blocksOfFour (key.drop i)).map (fun x => '-' :: x)).flatten := by
  induction fuel generalizing i acc with
  | zero =>
    have h : key.drop i = [] := List.drop_eq_nil_of_le (by omega)
    simp [formatLoop, h, blocksOfFour]
  | succ fuel ih =>
    unfold formatLoop
    by_cases hlt : i < key.length
    · have hne : key.drop i ≠ [] := by
        intro h
        have := List.drop_eq_nil_iff.1 h
        omega
      have htake : (key.drop i).take ((if i + 4 > key.length then key.length else i + 4) - i) =
          (key.drop i).take 4 := by
        by_cases h4 : i + 4 > key.length
        · rw [if_pos h4]
          rw [List.take_of_length_le (by simp), List.take_of_length_le (by simp; omega)]
        · rw [if_neg h4]
          congr 1
          omega
      simp only [hlt, if_true, hi, htake]
      rw [ih (i + 4) _ (by omega) (by omega), blocksOfFour_of_ne_nil _ hne, List.drop_drop]
      simp [Nat.add_comm]
    · have h : key.drop i = [] := List.drop_eq_nil_of_le (by omega)
      simp [hlt, h, blocksOfFour]

theorem formatLoop_eq_intercalate (key : List Char) (fuel : Nat)
    (hfuel : key.length ≤ 4 * fuel) :
    formatLoop key fuel 0 [] = ['-'].intercalate (blocksOfFour key) := by
  by_cases hkey : key = []
  · subst hkey
    cases fuel <;> simp [formatLoop, blocksOfFour, List.intercalate]
  · have hpos : 0 < key.length := List.length_pos.2 hkey
    obtain ⟨f, rfl⟩ : ∃ f, fuel = f + 1 := ⟨fuel - 1, by omega⟩
    unfold formatLoop
    have htake : (key.drop 0).take ((if 0 + 4 > key.length then key.length else 0 + 4) - 0) =
        key.take 4 := by
      by_cases h4 : 0 + 4 > key.length
      · rw [if_pos h4]
        simp only [List.drop_zero, Nat.sub_zero]
        rw [List.take_of_length_le (le_refl _), List.take_of_length_le (by omega)]
      · rw [if_neg h4]; simp
    simp only [hpos, if_true, Nat.lt_irrefl, if_false, htake, List.nil_append]
    rw [formatLoop_of_pos key f (0 + 4) _ (by omega) (by omega), blocksOfFour_of_ne_nil _ hkey,
      intercalate_dash_cons]

/-! ### Blocks of four -/

theorem blocks_induction (P : List Char → Prop) (hnil : P [])
    (hstep : ∀ l, l ≠ [] → P (l.drop 4) → P l) : ∀ l, P l := by
  have key : ∀ n, ∀ l : List Char, l.length ≤ n → P l := by
    intro n
    induction n with
    | zero =>
      intro l hl
      have h0 : l = [] := List.eq_nil_of_length_eq_zero (Nat.le_zero.1 hl)
      rw [h0]; exact hnil
    | succ n ih =>
      intro l hl
      by_cases hnil2 : l = []
      · rw [hnil2]; exact hnil
      · exact hstep l hnil2 (ih _ (by rw [List.length_drop]; omega))
  exact fun l => key l.length l (le_refl _)

theorem flatten_blocksOfFour (l : List Char) : (blocksOfFour l).flatten = l := by
  induction l using blocks_induction with
  | hnil => simp [blocksOfFour]
  | hstep l hl ih =>
    rw [blocksOfFour_of_ne_nil l hl, List.flatten_cons, ih, List.take_append_drop]

theorem length_blocksOfFour (l : List Char) :
    (blocksOfFour l).length = (l.length + 3) / 4 := by
  induction l using blocks_induction with
  | hnil => simp [blocksOfFour]
  | hstep l hl ih =>
    have hpos : 0 < l.length := List.length_pos.2 hl
    rw [blocksOfFour_of_ne_nil l hl, List.length_cons, ih, List.length_drop]
    omega

theorem blocksOfFour_ne_nil (l : List Char) (hl : l ≠ []) : blocksOfFour l ≠ [] := by
  rw [blocksOfFour_of_ne_nil l hl]
  exact List.cons_ne_nil _ _

theorem blocksOfFour_eq_nil_iff (l : List Char) : blocksOfFour l = [] ↔ l = [] := by
  constructor
  · intro h
    by_contra hl
    exact blocksOfFour_ne_nil l hl h
  · intro h
    rw [h]; simp [blocksOfFour]

theorem block_size (l : List Char) :
    ∀ b ∈ blocksOfFour l, b ≠ [] ∧ b.length ≤ 4 := by
  induction l using blocks_induction with
  | hnil => simp [blocksOfFour]
  | hstep l hl ih =>
    rw [blocksOfFour_of_ne_nil l hl]
    intro b hb
    rcases List.mem_cons.1 hb with h | h
    · subst h
      have hpos : 0 < l.length := List.length_pos.2 hl
      refine ⟨?_, by rw [List.length_take]; omega⟩
      intro h0
      have hz : (l.take 4).length = 0 := by rw [h0]; rfl
      rw [List.length_take] at hz
      omega
    · exact ih b h

theorem block_size_of_dvd (l : List Char) (hdvd : 4 ∣ l.length) :
    ∀ b ∈ blocksOfFour l, b.length = 4 := by
  induction l using blocks_induction with
  | hnil => simp [blocksOfFour]
  | hstep l hl ih =>
    have hpos : 0 < l.length := List.length_pos.2 hl
    have h4 : 4 ≤ l.length := Nat.le_of_dvd hpos hdvd
    rw [blocksOfFour_of_ne_nil l hl]
    intro b hb
    rcases List.mem_cons.1 hb with h | h
    · subst h
      rw [List.length_take]; omega
    · refine ih ?_ b h
      rw [List.length_drop]
      exact (Nat.dvd_sub' hdvd (dvd_refl 4))

theorem block_size_dropLast (l : List Char) :
    ∀ b ∈ (blocksOfFour l).dropLast, b.length = 4 := by
  induction l using blocks_induction with
  | hnil => simp [blocksOfFour]
  | hstep l hl ih =>
    rw [blocksOfFour_of_ne_nil l hl]
    by_cases hrest : l.drop 4 = []
    · rw [hrest]; simp [blocksOfFour]
    · obtain ⟨x, xs, hx⟩ := List.exists_cons_of_ne_nil (blocksOfFour_ne_nil _ hrest)
      rw [hx, List.dropLast_cons₂, ← hx]
      intro b hb
      rcases List.mem_cons.1 hb with h | h
      · subst h
        have : 4 < l.length := by
          by_contra hle
          exact hrest (List.drop_eq_nil_of_le (by omega))
        rw [List.length_take]; omega
      · exact ih b h

theorem block_size_getLast (l : List Char) (hl : l ≠ []) :
    (blocksOfFour l).getLast?.map List.length =
      some (if l.length % 4 = 0 then 4 else l.length % 4) := by
  induction l using blocks_induction with
  | hnil => exact absurd rfl hl
  | hstep l _ ih =>
    have hpos : 0 < l.length := List.length_pos.2 hl
    rw [blocksOfFour_of_ne_nil l hl]
    by_cases hrest : l.drop 4 = []
    · have hle : l.length ≤ 4 := by
        have := List.drop_eq_nil_iff.1 hrest
        omega
      rw [hrest]
      simp only [blocksOfFour, List.getLast?_singleton, Option.map_some', List.length_take]
      congr 1
      split <;> omega
    · obtain ⟨x, xs, hx⟩ := List.exists_cons_of_ne_nil (blocksOfFour_ne_nil _ hrest)
      have hgt : 4 < l.length := by
        by_contra hle
        exact hrest (List.drop_eq_nil_of_le (by omega))
      rw [hx, List.getLast?_cons_cons, ← hx, ih hrest, List.length_drop]
      congr 1
      have hmod : (l.length - 4) % 4 = l.length % 4 := by omega
      rw [hmod]

/-! ### The hex encoding -/

theorem hexDigit_spec (d : Nat) (h : d < 16) :
    hextable.getD d '0' ∈ hextable ∧ hextable.getD d '0' ≠ '-' ∧
      hextable.indexOf (hextable.getD d '0') = d := by
  interval_cases d <;> decide

theorem length_hexEncode (bytes : List Byte) : (hexEncode bytes).length = 2 * bytes.length := by
  induction bytes with
  | nil => rfl
  | cons v rest ih => simp only [hexEncode, List.length_cons, ih]; omega

theorem hexEncode_digits (bytes : List Byte) :
    ∀ c ∈ hexEncode bytes, c ∈ hextable ∧ c ≠ '-' := by
  induction bytes with
  | nil => simp [hexEncode]
  | cons v rest ih =>
    have hv := v.isLt
    have h1 := hexDigit_spec (v.val / 16) (by omega)
    have h2 := hexDigit_spec (v.val % 16) (by omega)
    intro c hc
    simp only [hexEncode, List.mem_cons] at hc
    rcases hc with h | h | h
    · rw [h]; exact ⟨h1.1, h1.2.1⟩
    · rw [h]; exact ⟨h2.1, h2.2.1⟩
    · exact ih c h

theorem hexEncode_injective (a b : List Byte) (h : hexEncode a = hexEncode b) : a = b := by
  induction a generalizing b with
  | nil =>
    cases b with
    | nil => rfl
    | cons w rest => simp [hexEncode] at h
  | cons v rest ih =>
    cases b with
    | nil => simp [hexEncode] at h
    | cons w rest2 =>
      simp only [hexEncode, List.cons.injEq] at h
      obtain ⟨hhi, hlo, hrest⟩ := h
      have hv := v.isLt
      have hw := w.isLt
      have e1 : hextable.indexOf (hextable.getD (v.val / 16) '0') =
          hextable.indexOf (hextable.getD (w.val / 16) '0') := by rw [hhi]
      have e2 : hextable.indexOf (hextable.getD (v.val % 16) '0') =
          hextable.indexOf (hextable.getD (w.val % 16) '0') := by rw [hlo]
      rw [(hexDigit_spec (v.val / 16) (by omega)).2.2,
        (hexDigit_spec (w.val / 16) (by omega)).2.2] at e1
      rw [(hexDigit_spec (v.val % 16) (by omega)).2.2,
        (hexDigit_spec (w.val % 16) (by omega)).2.2] at e2
      have hvw : v = w := Fin.ext (by omega)
      rw [hvw, ih rest2 hrest]

/-! ### Dashes between the blocks -/

theorem filter_dashed (bs : List (List Char)) (h : ∀ b ∈ bs, '-' ∉ b) :
    ((bs.map (fun x => '-' :: x)).flatten).filter (fun c => c != '-') = bs.flatten := by
  induction bs with
  | nil => rfl
  | cons b rest ih =>
    have hb : b.filter (fun c => c != '-') = b := by
      rw [List.filter_eq_self]
      intro c hc
      have : c ≠ '-' := fun hcd => h b (List.mem_cons_self _ _) (hcd ▸ hc)
      simpa using this
    simp only [List.map_cons, List.flatten_cons, List.filter_append, List.filter_cons]
    rw [hb, ih (fun x hx => h x (List.mem_cons_of_mem _ hx))]
    simp

theorem filter_intercalate_dash (bs : List (List Char)) (h : ∀ b ∈ bs, '-' ∉ b) :
    (['-'].intercalate bs).filter (fun c => c != '-') = bs.flatten := by
  cases bs with
  | nil => simp [List.intercalate]
  | cons b rest =>
    have hb : b.filter (fun c => c != '-') = b := by
      rw [List.filter_eq_self]
      intro c hc
      have : c ≠ '-' := fun hcd => h b (List.mem_cons_self _ _) (hcd ▸ hc)
      simpa using this
    rw [intercalate_dash_cons, List.filter_append, hb,
      filter_dashed rest (fun x hx => h x (List.mem_cons_of_mem _ hx)), List.flatten_cons]

theorem length_dashed (bs : List (List Char)) :
    ((bs.map (fun x => '-' :: x)).flatten).length = bs.flatten.length + bs.length := by
  induction bs with
  | nil => rfl
  | cons b rest ih =>
    simp only [List.map_cons, List.flatten_cons, List.length_append, List.length_cons, ih]
    omega

theorem length_intercalate_dash (bs : List (List Char)) (h : bs ≠ []) :
    (['-'].intercalate bs).length + 1 = bs.flatten.length + bs.length := by
  cases bs with
  | nil => exact absurd rfl h
  | cons b rest =>
    rw [intercalate_dash_cons, List.length_append, length_dashed, List.flatten_cons,
      List.length_append, List.length_cons]
    omega

/-! ### The generated key -/

/-- The key that GenerateLicenseKey returns when the entropy source delivers the
bytes it asks for: the blocks of four of their hex encoding, joined by dashes. -/
theorem generateLicenseKey_of_bytes (n : Int) (bytes rest : List Byte)
    (hn : bytes.length = (if n ≤ 0 then 16 else n).toNat) :
    GenerateLicenseKey n (bytes ++ rest) =
      .ok (String.mk (['-'].intercalate (blocksOfFour (hexEncode bytes)))) := by
  unfold GenerateLicenseKey randRead
  have hlen : ¬ (bytes ++ rest).length < (if n ≤ 0 then 16 else n).toNat := by
    rw [List.length_append, ← hn]; omega
  have htake : (bytes ++ rest).take (if n ≤ 0 then 16 else n).toNat = bytes := by
    rw [← hn, List.take_left']
    rfl
  simp only [hlen, if_false, htake]
  rw [formatLoop_eq_intercalate _ _ (by omega)]

/-- C11 (amended): when the entropy source delivers the n bytes asked for (16
when the argument is ≤ 0), GenerateLicenseKey returns a key whose dash-separated
blocks are the blocks of four of the lowercase hex encoding of those bytes, the
last block being the two remaining characters when n is odd: removing the
dashes gives back the hex string of 2n characters, no block is empty, every
block but the last has 4 characters, the last has 4 (n even) or 2 (n odd); for
the default n = 16 the key is 8 blocks of 4 characters, of length 39; and two
byte sequences of the same length with the same key are equal. -/
theorem generateLicenseKey_blocks (n : Int) (bytes rest : List Byte)
    (hn : bytes.length = (if n ≤ 0 then 16 else n).toNat) :
    ∃ key, GenerateLicenseKey n (bytes ++ rest) = .ok key ∧
      key.data.splitOn '-' = blocksOfFour (hexEncode bytes) ∧
      key.data.filter (fun c => c != '-') = hexEncode bytes ∧
      (hexEncode bytes).length = 2 * bytes.length ∧
      (∀ c ∈ hexEncode bytes, c ∈ "0123456789abcdef".data) ∧
      (∀ b ∈ key.data.splitOn '-', b ≠ []) ∧
      (∀ b ∈ (key.data.splitOn '-').dropLast, b.length = 4) ∧
      (key.data.splitOn '-').getLast?.map List.length =
        some (if bytes.length % 2 = 0 then 4 else 2) ∧
      (n ≤ 0 → (key.data.splitOn '-').length = 8 ∧
        (∀ b ∈ key.data.splitOn '-', b.length = 4) ∧ key.length = 39) ∧
      (∀ bytes2 rest2, bytes2.length = bytes.length →
        GenerateLicenseKey n (bytes2 ++ rest2) = .ok key → bytes2 = bytes) := by
  have hpos : 0 < bytes.length := by
    rw [hn]
    by_cases hle : n ≤ 0
    · rw [if_pos hle]; decide
    · rw [if_neg hle]; omega
  have hhexlen := length_hexEncode bytes
  have hhex : hexEncode bytes ≠ [] := by
    intro h
    have hz : (hexEncode bytes).length = 0 := by rw [h]; rfl
    omega
  have hblocks : blocksOfFour (hexEncode bytes) ≠ [] := blocksOfFour_ne_nil _ hhex
  have hnodash : ∀ b ∈ blocksOfFour (hexEncode bytes), '-' ∉ b := by
    intro b hb hmem
    have hc : '-' ∈ (blocksOfFour (hexEncode bytes)).flatten :=
      List.mem_flatten.2 ⟨b, hb, hmem⟩
    rw [flatten_blocksOfFour] at hc
    exact (hexEncode_digits bytes _ hc).2 rfl
  have hsplit : (['-'].intercalate (blocksOfFour (hexEncode bytes))).splitOn '-' =
      blocksOfFour (hexEncode bytes) := List.splitOn_intercalate _ '-' hnodash hblocks
  have hfilter : (['-'].intercalate (blocksOfFour (hexEncode bytes))).filter
      (fun c => c != '-') = hexEncode bytes := by
    rw [filter_intercalate_dash _ hnodash, flatten_blocksOfFour]
  refine ⟨_, generateLicenseKey_of_bytes n bytes rest hn, hsplit, hfilter, hhexlen,
    fun c hc => (hexEncode_digits bytes c hc).1, ?_, ?_, ?_, ?_, ?_⟩
  · intro b hb
    rw [hsplit] at hb
    exact (block_size _ b hb).1
  · intro b hb
    rw [hsplit] at hb
    exact block_size_dropLast _ b hb
  · rw [hsplit, block_size_getLast _ hhex, hhexlen]
    congr 1
    split <;> split <;> omega
  · intro hle
    have h16 : bytes.length = 16 := by rw [hn, if_pos hle]; rfl
    have h32 : (hexEncode bytes).length = 32 := by rw [hhexlen, h16]
    have h8 : (blocksOfFour (hexEncode bytes)).length = 8 := by
      rw [length_blocksOfFour, h32]
    rw [hsplit]
    refine ⟨h8, block_size_of_dvd _ (by rw [h32]; decide), ?_⟩
    have hlen := length_intercalate_dash _ hblocks
    rw [flatten_blocksOfFour, h32, h8] at hlen
    show (['-'].intercalate (blocksOfFour (hexEncode bytes))).length = 39
    omega
  · intro bytes2 rest2 hlen2 hgen
    rw [generateLicenseKey_of_bytes n bytes2 rest2 (by rw [hlen2, hn])] at hgen
    have hdata := congrArg String.data (Except.ok.inj hgen)
    have hf := congrArg (List.filter (fun c => c != '-')) hdata
    have hpos2 : 0 < bytes2.length := by omega
    have hnodash2 : ∀ b ∈ blocksOfFour (hexEncode bytes2), '-' ∉ b := by
      intro b hb hmem
      have hc : '-' ∈ (blocksOfFour (hexEncode bytes2)).flatten :=
        List.mem_flatten.2 ⟨b, hb, hmem⟩
      rw [flatten_blocksOfFour] at hc
      exact (hexEncode_digits bytes2 _ hc).2 rfl
    simp only [] at hf
    rw [filter_intercalate_dash _ hnodash2, flatten_blocksOfFour, hfilter] at hf
    exact hexEncode_injective _ _ hf

/-- Witness of C11: the default length with sixteen bytes 0xab. -/
theorem generateLicenseKey_blocks_witness :
    ∃ key, GenerateLicenseKey 0 (sampleEntropy ++ []) = .ok key ∧
      key.data.splitOn '-' = blocksOfFour (hexEncode sampleEntropy) ∧
      key.data.filter (fun c => c != '-') = hexEncode sampleEntropy ∧
      (hexEncode sampleEntropy).length = 2 * sampleEntropy.length ∧
      (∀ c ∈ hexEncode sampleEntropy, c ∈ "0123456789abcdef".data) ∧
      (∀ b ∈ key.data.splitOn '-', b ≠ []) ∧
      (∀ b ∈ (key.data.splitOn '-').dropLast, b.length = 4) ∧
      (key.data.splitOn '-').getLast?.map List.length =
        some (if sampleEntropy.length % 2 = 0 then 4 else 2) ∧
      ((0 : Int) ≤ 0 → (key.data.splitOn '-').length = 8 ∧
        (∀ b ∈ key.data.splitOn '-', b.length = 4) ∧ key.length = 39) ∧
      (∀ bytes2 rest2, bytes2.length = sampleEntropy.length →
        GenerateLicenseKey 0 (bytes2 ++ rest2) = .ok key → bytes2 = sampleEntropy) :=
  generateLicenseKey_blocks 0 sampleEntropy [] (by decide)

/-- Counterexample to C11 as stated: for n = 3 the hex string has 6 characters and
the key is "0123-ff", whose last block has 2 characters, not 4. -/
theorem generateLicenseKey_short_last_block :
    GenerateLicenseKey 3 [1, 35, 255] = .ok "0123-ff" ∧
    "0123-ff".data.splitOn '-' = ["0123".data, "ff".data] ∧
    "ff".data.length = 2 := by
  refine ⟨rfl, by decide, by decide⟩

end LicenseService
